import Mathlib

/-!
Verification of the client request/polling service of the transcription app
(src/frontend/src/services/APIService.ts) and, modelled from the spec, the
backend single-flight content cache. The service is embedded shallowly:
each method becomes a pure function from the service state and the observable
outcome of its network calls to a result, an updated state and a list of
emitted effects (fetches, versionMismatch window events, handler
notifications).
-/

namespace TranscribeClient

/-- Category payload (src/frontend/src/types/api.ts, TranscriptCategory).
The sentiment union type is modelled as a plain string. Numeric fields of the
language are modelled as rationals. -/
structure TranscriptCategory where
  primary_topic : String
  sentiment : String
  keywords : List String
  confidence : ℚ
  summary : String
deriving DecidableEq, Repr

/-- APIResponse from types/api.ts: all four fields are optional. -/
structure APIResponse (T : Type) where
  data : Option T := none
  error : Option String := none
  version : Option String := none
  stale : Option Bool := none
deriving DecidableEq, Repr

/-- ActiveJob from types/api.ts; createdAt (a Date) is an epoch timestamp. -/
structure ActiveJob where
  jobId : String
  status : String
  progress : ℚ
  transcription : Option String := none
  category : Option TranscriptCategory := none
  error : Option String := none
  createdAt : Nat
deriving DecidableEq, Repr

/-- TranscriptionStatusResponse from types/api.ts. -/
structure TranscriptionStatusResponse where
  job_id : String
  status : String
  progress : ℚ
  transcription : Option String := none
  category : Option TranscriptCategory := none
  error : Option String := none
deriving DecidableEq, Repr

/-- TranscriptionJobResponse from types/api.ts. -/
structure TranscriptionJobResponse where
  job_id : String
  status : String
deriving DecidableEq, Repr

/-- UserResponse from types/api.ts. -/
structure UserResponse where
  user_id : String
deriving DecidableEq, Repr

/-- The part of a fetch Response that makeRequest consumes: the echoed
X-API-Version header, the ok flag and numeric status code, the detail field
of an error body, and the parsed json body used when ok. -/
structure HttpResp (T : Type) where
  echoedVersion : Option String := none
  ok : Bool := true
  status : Nat := 200
  errorDetail : Option String := none
  body : T
deriving DecidableEq, Repr

/-- Observable effects of a service method: an outgoing network request with
the headers it carries, a versionMismatch window event with both versions,
and a notification of all registered job update handlers with the full
current job mapping. -/
inductive Event where
  | fetchReq (endpoint : String) (headers : List (String × String))
  | versionMismatch (backendVersion frontendVersion : String)
  | notify (jobs : List (String × ActiveJob))
deriving DecidableEq, Repr

/-- The mutable fields of the APIService singleton, plus the userId slot of
window.localStorage that initializeUserId reads and writes. The activeJobs
Map is an insertion-ordered association list with distinct keys. -/
structure ServiceState where
  currentVersion : String := "1.0.0"
  userId : Option String := none
  localStorageUserId : Option String := none
  isStale : Bool := false
  activeJobs : List (String × ActiveJob) := []
  handlerCount : Nat := 0
deriving DecidableEq, Repr

/-- Map.get on the association list. -/
def mapGet {α : Type} (m : List (String × α)) (k : String) : Option α :=
  (m.find? (fun p => p.1 == k)).map Prod.snd

/-- Map.set on the association list: replace in place when the key is
present (preserving insertion order), append otherwise. -/
def mapSet {α : Type} (m : List (String × α)) (k : String) (v : α) :
    List (String × α) :=
  if m.any (fun p => p.1 == k) then
    m.map (fun p => if p.1 == k then (k, v) else p)
  else m ++ [(k, v)]

/-- The distinguished stale-version result returned by makeRequest
(APIService.ts lines 171-176 and 214-217). -/
def staleResult (T : Type) : APIResponse T :=
  { error := some "Application version mismatch. Please refresh the page.",
    stale := some true }

/-- The headers makeRequest attaches (lines 179-191): always the client
version, the user id when known, and a json content type when the body is a
plain object rather than FormData. -/
def requestHeaders (st : ServiceState) (hasJsonBody : Bool) :
    List (String × String) :=
  [("X-API-Version", st.currentVersion)]
    ++ (match st.userId with
        | some u => [("X-User-ID", u)]
        | none => [])
    ++ (if hasJsonBody then [("Content-Type", "application/json")] else [])

/-- Body of makeRequest after the user-id initialization step
(APIService.ts lines 170-236). The resp argument is the outcome of the
fetch: an error message when fetch or json parsing throws, otherwise the
observable response. Order of checks follows the source: stale gate first
(no fetch in that case), then the echoed-version mismatch check, then the
ok check, then the success path. -/
def makeRequestCore (T : Type) (endpoint : String) (hasJsonBody : Bool)
    (st : ServiceState) (resp : Except String (HttpResp T)) :
    APIResponse T × ServiceState × List Event :=
  if st.isStale then (staleResult T, st, [])
  else
    let headers := requestHeaders st hasJsonBody
    match resp with
    | .error e =>
        ({ error := some ("Request failed: " ++ e) }, st,
         [.fetchReq endpoint headers])
    | .ok hr =>
        let afterVersionCheck : APIResponse T × ServiceState × List Event :=
          if hr.ok then
            ({ data := some hr.body, version := hr.echoedVersion }, st,
             [.fetchReq endpoint headers])
          else
            ({ error := some (hr.errorDetail.getD
                  ("Request failed with status " ++ toString hr.status)),
               version := hr.echoedVersion }, st,
             [.fetchReq endpoint headers])
        match hr.echoedVersion with
        | some bv =>
            if bv ≠ st.currentVersion then
              (staleResult T, { st with isStale := true },
               [.fetchReq endpoint headers,
                .versionMismatch bv st.currentVersion])
            else afterVersionCheck
        | none => afterVersionCheck

/-- Models initializeUserId (APIService.ts lines 51-72), together with the
mutual recursion through getUser and makeRequest. When local storage holds a
user id, the method stores it in this.userId and returns without any network
activity. When local storage is empty, the method calls getUser, whose
makeRequest re-enters initializeUserId (lines 166-168) before reaching the
stale check or any fetch, with completely unchanged state; with empty local
storage that mutual recursion therefore never terminates, performs no fetch
and changes no state. The non-terminating case is modelled as none. -/
def initUser (st : ServiceState) : Option (ServiceState × List Event) :=
  match st.localStorageUserId with
  | some u => some ({ st with userId := some u }, [])
  | none => none

/-- makeRequest (APIService.ts lines 160-237): run initializeUserId when the
user id is not yet known, then the request body makeRequestCore. Returns
none when the call never returns (see initUser). -/
def makeRequest (T : Type) (endpoint : String) (hasJsonBody : Bool)
    (st : ServiceState) (resp : Except String (HttpResp T)) :
    Option (APIResponse T × ServiceState × List Event) :=
  match (if st.userId.isNone then initUser st else some (st, [])) with
  | none => none
  | some (st1, evs1) =>
      let out := makeRequestCore T endpoint hasJsonBody st1 resp
      some (out.1, out.2.1, evs1 ++ out.2.2)

/-- checkVersionCompatibility (APIService.ts lines 75-95): a direct fetch of
/version with no headers; on a version different from currentVersion sets
isStale and dispatches a versionMismatch event with both versions; on a
matching version clears isStale unconditionally; when the fetch or parse
throws (versionResp = none) only logs, changing nothing. -/
def checkVersionCompatibility (st : ServiceState)
    (versionResp : Option String) : ServiceState × List Event :=
  match versionResp with
  | none => (st, [.fetchReq "/version" []])
  | some v =>
      if v ≠ st.currentVersion then
        ({ st with isStale := true },
         [.fetchReq "/version" [], .versionMismatch v st.currentVersion])
      else
        ({ st with isStale := false }, [.fetchReq "/version" []])

/-- getBackendVersion (APIService.ts lines 240-248): a direct fetch of
/version with no headers, not routed through makeRequest; never touches the
service state. -/
def getBackendVersion (st : ServiceState)
    (versionResp : Except String String) :
    APIResponse String × ServiceState × List Event :=
  match versionResp with
  | .ok v => ({ data := some v }, st, [.fetchReq "/version" []])
  | .error e =>
      ({ error := some ("Failed to get backend version: " ++ e) }, st,
       [.fetchReq "/version" []])

/-- getUser (APIService.ts lines 251-261): a makeRequest of /user whose
result is projected to the user_id field. -/
def getUser (st : ServiceState)
    (uresp : Except String (HttpResp UserResponse)) :
    Option (APIResponse String × ServiceState × List Event) :=
  match makeRequest UserResponse "/user" false st uresp with
  | none => none
  | some (r, st1, evs) =>
      some ({ data := r.data.map (fun d => d.user_id), error := r.error },
            st1, evs)

/-- The change test of pollActiveJobs (APIService.ts lines 123-129) applied
to the category field. The five fields are compared with the strict
inequality operator of the language; for an object field such as category
that operator compares object references, and the freshly parsed response
object is never the object stored on a previous tick, so two present
category values always compare as different even when structurally equal.
Two absent values compare as equal. -/
def categoryRefDiffers :
    Option TranscriptCategory → Option TranscriptCategory → Bool
  | none, none => false
  | _, _ => true

/-- The full change test of pollActiveJobs lines 123-129: status, progress,
transcription and error are primitives compared by value; category is
compared by reference (categoryRefDiffers). -/
def jsFieldsDiffer (cur : ActiveJob) (js : TranscriptionStatusResponse) :
    Bool :=
  cur.status != js.status ||
  cur.progress != js.progress ||
  cur.transcription != js.transcription ||
  categoryRefDiffers cur.category js.category ||
  cur.error != js.error

/-- The update written by pollActiveJobs lines 130-137: spread of the
current job with the five fetched fields replacing the stored ones. -/
def applyStatus (cur : ActiveJob) (js : TranscriptionStatusResponse) :
    ActiveJob :=
  { cur with
    status := js.status
    progress := js.progress
    transcription := js.transcription
    category := js.category
    error := js.error }

/-- One iteration of the results.forEach loop of pollActiveJobs lines
115-148, acting on the evolving jobs map and the updated flag. A none result
models a settled status fetch that carried no data (rejected, or fulfilled
with an error or stale result); it is skipped. A fulfilled result is looked
up in the evolving map under the job_id carried by the response, skipped if
untracked, and written (setting the updated flag) exactly when the change
test fires. -/
def pollStep (acc : List (String × ActiveJob) × Bool)
    (r : Option TranscriptionStatusResponse) :
    List (String × ActiveJob) × Bool :=
  match r with
  | none => acc
  | some js =>
      match mapGet acc.1 js.job_id with
      | none => acc
      | some cur =>
          if jsFieldsDiffer cur js then
            (mapSet acc.1 js.job_id (applyStatus cur js), true)
          else acc

/-- pollActiveJobs (APIService.ts lines 98-157). When the tracked map is
empty the tick returns at line 100 before any network activity. Otherwise
the tick issues one concurrent status fetch per tracked job and waits for
all of them to settle; the oracle argument abstracts the data field of each
settled per-job getJobStatus result (makeRequest catches all failures, so a
failed or stale or errored fetch is a none). The settled results are folded
through pollStep in key order, and the handlers are notified once, with the
full current mapping, exactly when the updated flag was set. -/
def pollActiveJobs (st : ServiceState)
    (oracle : String → Option TranscriptionStatusResponse) :
    ServiceState × List Event :=
  if st.activeJobs.isEmpty then (st, [])
  else
    let ks := st.activeJobs.map Prod.fst
    let results := ks.map oracle
    let folded := results.foldl pollStep (st.activeJobs, false)
    ({ st with activeJobs := folded.1 },
     if folded.2 then [Event.notify folded.1] else [])

/-- transcribeAudio (APIService.ts lines 264-292): a POST of the audio form
data through makeRequest; on a response with data, inserts an ActiveJob
under the returned job id carrying the returned status, progress 0 and the
current time, notifies the handlers, and returns the job id; otherwise
returns the error of the response. -/
def transcribeAudio (st : ServiceState)
    (resp : Except String (HttpResp TranscriptionJobResponse)) (now : Nat) :
    Option (APIResponse String × ServiceState × List Event) :=
  match makeRequest TranscriptionJobResponse "/transcribe" false st resp with
  | none => none
  | some (r, st1, evs) =>
      match r.data with
      | some d =>
          let job : ActiveJob :=
            { jobId := d.job_id, status := d.status, progress := 0,
              createdAt := now }
          let st2 := { st1 with
            activeJobs := mapSet st1.activeJobs d.job_id job }
          some ({ data := some d.job_id }, st2,
                evs ++ [.notify st2.activeJobs])
      | none => some ({ error := r.error }, st1, evs)

/-- getJobStatus (APIService.ts lines 295-297). -/
def getJobStatus (st : ServiceState) (jobId : String)
    (resp : Except String (HttpResp TranscriptionStatusResponse)) :
    Option (APIResponse TranscriptionStatusResponse × ServiceState ×
      List Event) :=
  makeRequest TranscriptionStatusResponse ("/jobs/" ++ jobId) false st resp

/-- getUserJobs (APIService.ts lines 300-302). -/
def getUserJobs (st : ServiceState)
    (resp : Except String (HttpResp (List TranscriptionStatusResponse))) :
    Option (APIResponse (List TranscriptionStatusResponse) × ServiceState ×
      List Event) :=
  makeRequest (List TranscriptionStatusResponse) "/jobs" false st resp

/-- registerJobUpdateHandler (APIService.ts lines 36-38): appends a handler;
only the count is observable in this model. -/
def registerJobUpdateHandler (st : ServiceState) : ServiceState :=
  { st with handlerCount := st.handlerCount + 1 }

/-- One interaction with the service: a user-triggered call, a timer tick,
or a handler registration, each carrying the observable outcome of the
network calls it performs. -/
inductive ClientOp where
  | submit (resp : Except String (HttpResp TranscriptionJobResponse))
      (now : Nat)
  | poll (oracle : String → Option TranscriptionStatusResponse)
  | checkVersion (versionResp : Option String)
  | backendVersion (versionResp : Except String String)
  | fetchUser (uresp : Except String (HttpResp UserResponse))
  | jobStatus (jobId : String)
      (resp : Except String (HttpResp TranscriptionStatusResponse))
  | userJobs
      (resp : Except String (HttpResp (List TranscriptionStatusResponse)))
  | registerHandler

/-- State transition of one interaction. A call that never returns (see
initUser) leaves the state as it was, which is exactly what the
non-terminating recursion does. -/
def clientStep (st : ServiceState) : ClientOp → ServiceState
  | .submit resp now =>
      match transcribeAudio st resp now with
      | some (_, st1, _) => st1
      | none => st
  | .poll oracle => (pollActiveJobs st oracle).1
  | .checkVersion versionResp =>
      (checkVersionCompatibility st versionResp).1
  | .backendVersion versionResp => (getBackendVersion st versionResp).2.1
  | .fetchUser uresp =>
      match getUser st uresp with
      | some (_, st1, _) => st1
      | none => st
  | .jobStatus jobId resp =>
      match getJobStatus st jobId resp with
      | some (_, st1, _) => st1
      | none => st
  | .userJobs resp =>
      match getUserJobs st resp with
      | some (_, st1, _) => st1
      | none => st
  | .registerHandler => registerJobUpdateHandler st

/-- A whole session: the interactions applied in order from a starting
state. -/
def runOps (st : ServiceState) (ops : List ClientOp) : ServiceState :=
  ops.foldl clientStep st

/-- A tracked job used by the concrete witnesses. -/
def sampleJob : ActiveJob :=
  { jobId := "j1", status := "processing", progress := 1/2, createdAt := 0 }

/-- A service state with one tracked job and a known user id. -/
def sampleState : ServiceState :=
  { userId := some "u1", activeJobs := [("j1", sampleJob)] }

/-- The same state with the stale gate set. -/
def staleSampleState : ServiceState :=
  { userId := some "u1", isStale := true, activeJobs := [("j1", sampleJob)] }

end TranscribeClient

namespace ContentCache

/-- Modelled from the spec: the backend ContentCache implementation is not
under src (only the frontend sources are), so the single-flight semantics of
getOrCompute is modelled from the spec, section 4.1: for one fingerprint
with no prior entry, concurrent callers either find the entry (hit), start
the one in-flight computation (miss, at most one at a time), or attach to
the in-flight computation and receive its result when it lands. Each caller
is a small state machine; V is the result type of the compute function. -/
inductive CallerState (V : Type) where
  | start
  | computing
  | waiting
  | done (v : V)
deriving DecidableEq, Repr

/-- Modelled from the spec: the cache cell for one fingerprint (entry,
hit and miss counters, an in-flight marker), the number of compute-function
invocations so far, and the multiset of caller states. -/
structure CacheSys (V : Type) where
  entry : Option V
  hits : Nat
  misses : Nat
  inflight : Bool
  computes : Nat
  callers : Multiset (CallerState V)

/-- N concurrent callers for one fingerprint with no prior cache entry. -/
def initSys (V : Type) (n : Nat) : CacheSys V :=
  ⟨none, 0, 0, false, 0, Multiset.replicate n CallerState.start⟩

/-- Modelled from the spec: one interleaving step of the concurrent callers.
v is the (deterministic) result of the compute function. A starting caller
that finds the entry takes a hit and finishes with the cached value; a
starting caller that finds no entry and nothing in flight invokes the
compute function (registering the in-flight computation); a starting caller
that finds a computation in flight attaches to it; the computing caller
lands by storing the entry, counting the one miss and finishing; an attached
caller wakes once the entry is stored, taking a hit and finishing with the
stored value. -/
inductive CacheStep (V : Type) (v : V) : CacheSys V → CacheSys V → Prop
  | hit (w : V) (h m c : Nat) (inf : Bool) (rest : Multiset (CallerState V)) :
      CacheStep V v
        ⟨some w, h, m, inf, c, CallerState.start ::ₘ rest⟩
        ⟨some w, h + 1, m, inf, c, CallerState.done w ::ₘ rest⟩
  | beginCompute (h m c : Nat) (rest : Multiset (CallerState V)) :
      CacheStep V v
        ⟨none, h, m, false, c, CallerState.start ::ₘ rest⟩
        ⟨none, h, m, true, c + 1, CallerState.computing ::ₘ rest⟩
  | attach (h m c : Nat) (rest : Multiset (CallerState V)) :
      CacheStep V v
        ⟨none, h, m, true, c, CallerState.start ::ₘ rest⟩
        ⟨none, h, m, true, c, CallerState.waiting ::ₘ rest⟩
  | finish (e : Option V) (h m c : Nat) (inf : Bool)
      (rest : Multiset (CallerState V)) :
      CacheStep V v
        ⟨e, h, m, inf, c, CallerState.computing ::ₘ rest⟩
        ⟨some v, h, m + 1, false, c, CallerState.done v ::ₘ rest⟩
  | wake (w : V) (h m c : Nat) (inf : Bool)
      (rest : Multiset (CallerState V)) :
      CacheStep V v
        ⟨some w, h, m, inf, c, CallerState.waiting ::ₘ rest⟩
        ⟨some w, h + 1, m, inf, c, CallerState.done w ::ₘ rest⟩

/-- Any interleaving of the concurrent callers. -/
def Reaches (V : Type) (v : V) : CacheSys V → CacheSys V → Prop :=
  Relation.ReflTransGen (CacheStep V v)

/-- Whether a caller has received its result. -/
def isDone {V : Type} : CallerState V → Bool
  | .done _ => true
  | _ => false

/-- Whether a caller is running the compute function. -/
def isComputing {V : Type} : CallerState V → Bool
  | .computing => true
  | _ => false

/-- Number of callers that have received their result. -/
def doneCount {V : Type} (s : CacheSys V) : Nat :=
  Multiset.card (s.callers.filter (fun c => isDone c = true))

/-- Number of callers currently running the compute function. -/
def computingCount {V : Type} (s : CacheSys V) : Nat :=
  Multiset.card (s.callers.filter (fun c => isComputing c = true))

end ContentCache

namespace TranscribeClient

/-- C1: while isStale is true, every call through makeRequest, whatever the
endpoint, returns the distinguished stale-version result and emits no
effect at all, in particular no network request; the flag and the job
mapping are unchanged by the call, so the gate persists for all subsequent
requests until a compatibility check resets it. -/
theorem c1_stale_gate_rejects_locally (T : Type) (endpoint : String)
    (hasJsonBody : Bool) (st : ServiceState)
    (resp : Except String (HttpResp T))
    (r : APIResponse T) (st1 : ServiceState) (evs : List Event)
    (hstale : st.isStale = true)
    (h : makeRequest T endpoint hasJsonBody st resp = some (r, st1, evs)) :
    r = staleResult T ∧ st1.isStale = true ∧
    st1.activeJobs = st.activeJobs ∧ evs = [] := by
  by_cases hu : st.userId.isNone
  · cases hls : st.localStorageUserId with
    | none => simp [makeRequest, initUser, hu, hls] at h
    | some u =>
        simp [makeRequest, initUser, hu, hls, makeRequestCore, hstale] at h
        obtain ⟨h1, h2, h3⟩ := h
        subst h1 h2 h3
        simp [hstale]
  · simp [makeRequest, hu, makeRequestCore, hstale] at h
    obtain ⟨h1, h2, h3⟩ := h
    subst h1 h2 h3
    simp [hstale]

/-- Witness for C1 at a concrete stale state and a concrete request. -/
theorem c1_stale_gate_witness :
    staleSampleState.isStale = true ∧
    makeRequest Nat "/jobs" false staleSampleState (Except.error "net") =
      some (staleResult Nat, staleSampleState, []) ∧
    (staleResult Nat = staleResult Nat ∧ staleSampleState.isStale = true ∧
     staleSampleState.activeJobs = staleSampleState.activeJobs ∧
     ([] : List Event) = []) :=
  ⟨rfl, rfl,
   c1_stale_gate_rejects_locally Nat "/jobs" false staleSampleState
     (Except.error "net") (staleResult Nat) staleSampleState [] rfl rfl⟩

/-- C2: a response whose echoed protocol-version header differs from the
client version trips the gate on the spot, for every endpoint routed
through the shared request path: isStale becomes true, a versionMismatch
event carrying both versions is dispatched, and the caller receives the
stale-version result instead of the response body. -/
theorem c2_echo_mismatch_trips_gate (T : Type) (endpoint : String)
    (hasJsonBody : Bool) (st : ServiceState) (hr : HttpResp T) (bv : String)
    (hfresh : st.isStale = false)
    (hv : hr.echoedVersion = some bv)
    (hne : bv ≠ st.currentVersion) :
    makeRequestCore T endpoint hasJsonBody st (Except.ok hr) =
      (staleResult T, { st with isStale := true },
       [Event.fetchReq endpoint (requestHeaders st hasJsonBody),
        Event.versionMismatch bv st.currentVersion]) := by
  simp [makeRequestCore, hfresh, hv, hne]

/-- Witness for C2: a mismatched echoed header on a concrete request. -/
theorem c2_echo_mismatch_witness :
    sampleState.isStale = false ∧
    (HttpResp.mk (some "1.1.0") true 200 none (0 : Nat)).echoedVersion =
      some "1.1.0" ∧
    "1.1.0" ≠ sampleState.currentVersion ∧
    makeRequestCore Nat "/jobs" false sampleState
        (Except.ok (HttpResp.mk (some "1.1.0") true 200 none (0 : Nat))) =
      (staleResult Nat, { sampleState with isStale := true },
       [Event.fetchReq "/jobs" (requestHeaders sampleState false),
        Event.versionMismatch "1.1.0" sampleState.currentVersion]) :=
  ⟨rfl, rfl, by decide,
   c2_echo_mismatch_trips_gate Nat "/jobs" false sampleState
     (HttpResp.mk (some "1.1.0") true 200 none (0 : Nat)) "1.1.0"
     rfl rfl (by decide)⟩

/-- C3: a completed compatibility check that observes a version different
from the client version leaves isStale true and dispatches a notification
carrying the backend and frontend versions; a check that observes an equal
version leaves isStale false, in particular clearing a previously set
flag. -/
theorem c3_check_compatibility_spec (st : ServiceState) (v : String) :
    (v ≠ st.currentVersion →
      checkVersionCompatibility st (some v) =
        ({ st with isStale := true },
         [Event.fetchReq "/version" [],
          Event.versionMismatch v st.currentVersion])) ∧
    (v = st.currentVersion →
      checkVersionCompatibility st (some v) =
        ({ st with isStale := false }, [Event.fetchReq "/version" []])) := by
  constructor <;> intro h <;> simp [checkVersionCompatibility, h]

/-- Witness for C3: both branches at concrete versions, the matching branch
starting from a stale state. -/
theorem c3_check_compatibility_witness :
    ("1.1.0" ≠ staleSampleState.currentVersion ∧
     checkVersionCompatibility staleSampleState (some "1.1.0") =
       ({ staleSampleState with isStale := true },
        [Event.fetchReq "/version" [],
         Event.versionMismatch "1.1.0" staleSampleState.currentVersion])) ∧
    ("1.0.0" = staleSampleState.currentVersion ∧
     checkVersionCompatibility staleSampleState (some "1.0.0") =
       ({ staleSampleState with isStale := false },
        [Event.fetchReq "/version" []])) :=
  ⟨⟨by decide,
    (c3_check_compatibility_spec staleSampleState "1.1.0").1 (by decide)⟩,
   ⟨rfl, (c3_check_compatibility_spec staleSampleState "1.0.0").2 rfl⟩⟩

/-- C7: a poll tick that begins with an empty tracked-job mapping returns
the state unchanged with no effects, and its outcome does not depend on the
per-job fetch oracle at all: no status fetch is consulted and no observer
is notified. -/
theorem c7_empty_tick_is_noop (st : ServiceState)
    (o1 o2 : String → Option TranscriptionStatusResponse)
    (h : st.activeJobs = []) :
    pollActiveJobs st o1 = (st, []) ∧
    pollActiveJobs st o1 = pollActiveJobs st o2 := by
  simp [pollActiveJobs, h]

/-- Witness for C7 at the empty starting state and two distinct oracles. -/
theorem c7_empty_tick_witness :
    (ServiceState.mk "1.0.0" none none false [] 0).activeJobs = [] ∧
    (pollActiveJobs (ServiceState.mk "1.0.0" none none false [] 0)
        (fun _ => none) =
      (ServiceState.mk "1.0.0" none none false [] 0, []) ∧
     pollActiveJobs (ServiceState.mk "1.0.0" none none false [] 0)
        (fun _ => none) =
       pollActiveJobs (ServiceState.mk "1.0.0" none none false [] 0)
        (fun k => some (TranscriptionStatusResponse.mk k "completed" 1
          none none none))) :=
  ⟨rfl,
   c7_empty_tick_is_noop (ServiceState.mk "1.0.0" none none false [] 0)
     (fun _ => none)
     (fun k => some (TranscriptionStatusResponse.mk k "completed" 1
       none none none)) rfl⟩

/-- The ActiveJob that transcribeAudio inserts for a submission response
(APIService.ts lines 275-280). -/
def submittedJob (d : TranscriptionJobResponse) (now : Nat) : ActiveJob :=
  { jobId := d.job_id, status := d.status, progress := 0, createdAt := now }

/-- C8: a successful submission inserts an ActiveJob under the returned job
id whose projected fields mirror the response of the server: the status is
exactly the returned status (for a cache hit this is already completed),
the job id is the returned id, progress starts at 0 with a local creation
time, and the handlers are notified of the insertion with the full current
mapping. -/
theorem c8_submit_inserts_job (st : ServiceState)
    (hr : HttpResp TranscriptionJobResponse) (now : Nat) (u : String)
    (huser : st.userId = some u)
    (hfresh : st.isStale = false)
    (hecho : hr.echoedVersion = some st.currentVersion)
    (hok : hr.ok = true) :
    transcribeAudio st (Except.ok hr) now =
      some ({ data := some hr.body.job_id },
            { st with
              activeJobs := mapSet st.activeJobs hr.body.job_id
                (submittedJob hr.body now) },
            [Event.fetchReq "/transcribe" (requestHeaders st false),
             Event.notify (mapSet st.activeJobs hr.body.job_id
               (submittedJob hr.body now))]) := by
  have hu : st.userId.isNone = false := by simp [huser]
  simp [transcribeAudio, makeRequest, hu, makeRequestCore, hfresh, hecho,
    hok, submittedJob]

/-- Witness for C8: a cache-hit style submission whose response status is
already completed. -/
theorem c8_submit_witness :
    sampleState.userId = some "u1" ∧
    sampleState.isStale = false ∧
    (HttpResp.mk (some "1.0.0") true 200 none
        (TranscriptionJobResponse.mk "j2" "completed")).echoedVersion =
      some sampleState.currentVersion ∧
    (HttpResp.mk (some "1.0.0") true 200 none
        (TranscriptionJobResponse.mk "j2" "completed")).ok = true ∧
    transcribeAudio sampleState
        (Except.ok (HttpResp.mk (some "1.0.0") true 200 none
          (TranscriptionJobResponse.mk "j2" "completed"))) 7 =
      some ({ data := some "j2" },
            { sampleState with
              activeJobs := mapSet sampleState.activeJobs "j2"
                (submittedJob (TranscriptionJobResponse.mk "j2"
                  "completed") 7) },
            [Event.fetchReq "/transcribe" (requestHeaders sampleState false),
             Event.notify (mapSet sampleState.activeJobs "j2"
               (submittedJob (TranscriptionJobResponse.mk "j2"
                 "completed") 7))]) :=
  ⟨rfl, rfl, rfl, rfl,
   c8_submit_inserts_job sampleState
     (HttpResp.mk (some "1.0.0") true 200 none
       (TranscriptionJobResponse.mk "j2" "completed")) 7 "u1"
     rfl rfl rfl rfl⟩

/-- C10: the two version-check operations are not routed through the
stale-gated shared request path: even in a stale state each still issues
its network fetch of /version, carrying neither the protocol-version header
nor the user header, and a check observing a matching version resets
isStale to false. -/
theorem c10_version_path_bypasses_gate (st : ServiceState)
    (versionResp : Option String) (vresp : Except String String)
    (_hstale : st.isStale = true) :
    Event.fetchReq "/version" [] ∈
      (checkVersionCompatibility st versionResp).2 ∧
    Event.fetchReq "/version" [] ∈ (getBackendVersion st vresp).2.2 ∧
    (checkVersionCompatibility st (some st.currentVersion)).1.isStale =
      false := by
  refine ⟨?_, ?_, ?_⟩
  · cases versionResp with
    | none => simp [checkVersionCompatibility]
    | some v =>
        by_cases hv : v = st.currentVersion <;>
          simp [checkVersionCompatibility, hv]
  · cases vresp <;> simp [getBackendVersion]
  · simp [checkVersionCompatibility]

/-- Witness for C10 at a concrete stale state. -/
theorem c10_version_path_witness :
    staleSampleState.isStale = true ∧
    (Event.fetchReq "/version" [] ∈
       (checkVersionCompatibility staleSampleState (some "1.1.0")).2 ∧
     Event.fetchReq "/version" [] ∈
       (getBackendVersion staleSampleState (Except.ok "1.1.0")).2.2 ∧
     (checkVersionCompatibility staleSampleState
        (some staleSampleState.currentVersion)).1.isStale = false) :=
  ⟨rfl,
   c10_version_path_bypasses_gate staleSampleState (some "1.1.0")
     (Except.ok "1.1.0") rfl⟩

end TranscribeClient

namespace TranscribeClient

/-- Reading an association list cons cell. -/
theorem mapGet_cons {α : Type} (a : String × α) (t : List (String × α))
    (k : String) :
    mapGet (a :: t) k = if a.1 == k then some a.2 else mapGet t k := by
  by_cases h : (a.1 == k) = true <;> simp [mapGet, List.find?, h]

/-- Setting a key whose head entry does not match recurses on the tail. -/
theorem mapSet_cons_ne {α : Type} (a : String × α) (t : List (String × α))
    (k : String) (v : α) (h : (a.1 == k) = false) :
    mapSet (a :: t) k v = a :: mapSet t k v := by
  have h' : ¬ a.1 = k := by simpa using h
  by_cases ht : t.any (fun p => p.1 == k) = true <;>
    simp [mapSet, List.any_cons, h, h', ht]

/-- Setting a key whose head entry matches rewrites the list in place. -/
theorem mapSet_cons_eq {α : Type} (a : String × α) (t : List (String × α))
    (k : String) (v : α) (h : (a.1 == k) = true) :
    mapSet (a :: t) k v =
      (k, v) :: t.map (fun p => if p.1 == k then (k, v) else p) := by
  have h' : a.1 = k := by simpa using h
  simp [mapSet, List.any_cons, h, h']

/-- Replacing entries of one key leaves lookups of another key alone. -/
theorem mapGet_map_replace_ne {α : Type} (t : List (String × α))
    (k u : String) (v : α) (hne : (u == k) = false) :
    mapGet (t.map (fun p => if p.1 == u then (u, v) else p)) k =
      mapGet t k := by
  have hne' : ¬ u = k := by simpa using hne
  induction t with
  | nil => rfl
  | cons b s ih =>
      by_cases hb : (b.1 == u) = true
      · have hbu : b.1 = u := by simpa using hb
        simp at ih
        simp [List.map_cons, mapGet_cons, hbu, hne', ih]
      · have hb' : ¬ b.1 = u := by simpa using hb
        simp at ih
        simp [List.map_cons, mapGet_cons, hb', ih]

/-- A set key reads back the written value. -/
theorem mapGet_mapSet_self {α : Type} (m : List (String × α)) (k : String)
    (v : α) : mapGet (mapSet m k v) k = some v := by
  induction m with
  | nil => simp [mapSet, mapGet, List.find?]
  | cons a t ih =>
      by_cases ha : (a.1 == k) = true
      · rw [mapSet_cons_eq a t k v ha]
        simp [mapGet_cons]
      · rw [mapSet_cons_ne a t k v (by simpa using ha)]
        rw [mapGet_cons]
        simp only [ha, if_false]
        simpa using ih

/-- Setting one key leaves lookups of another key alone. -/
theorem mapGet_mapSet_ne {α : Type} (m : List (String × α)) (k u : String)
    (v : α) (hne : u ≠ k) :
    mapGet (mapSet m u v) k = mapGet m k := by
  have hb : (u == k) = false := by simpa using hne
  induction m with
  | nil => simp [mapSet, mapGet, List.find?, hb]
  | cons a t ih =>
      by_cases ha : (a.1 == u) = true
      · have hau : a.1 = u := by simpa using ha
        have hak : (a.1 == k) = false := by simpa [hau] using hne
        rw [mapSet_cons_eq a t u v ha]
        rw [mapGet_cons, mapGet_cons]
        simp only [hb, hak, if_false]
        exact mapGet_map_replace_ne t k u v hb
      · rw [mapSet_cons_ne a t u v (by simpa using ha)]
        rw [mapGet_cons, mapGet_cons]
        by_cases hak : (a.1 == k) = true <;> simp [hak, ih]

/-- Setting any key preserves the presence of every present key. -/
theorem mapGet_isSome_mapSet {α : Type} (m : List (String × α))
    (k u : String) (v : α) (h : (mapGet m k).isSome = true) :
    (mapGet (mapSet m u v) k).isSome = true := by
  by_cases hu : u = k
  · subst hu
    simp [mapGet_mapSet_self]
  · rw [mapGet_mapSet_ne m k u v hu]
    exact h

/-- A present key is among the keys of the association list. -/
theorem mapGet_some_mem_keys {α : Type} (m : List (String × α))
    (k : String) (cur : α) (h : mapGet m k = some cur) :
    k ∈ m.map Prod.fst := by
  unfold mapGet at h
  cases hf : m.find? (fun p => p.1 == k) with
  | none => rw [hf] at h; simp at h
  | some a =>
      have hmem : a ∈ m := List.mem_of_find?_eq_some hf
      have hpa := List.find?_some hf
      have hak : a.1 = k := by simpa using hpa
      exact hak ▸ List.mem_map_of_mem Prod.fst hmem

end TranscribeClient

namespace TranscribeClient

/-- Unfolding of pollStep on a skipped result. -/
theorem pollStep_none (acc : List (String × ActiveJob) × Bool) :
    pollStep acc none = acc := rfl

/-- Unfolding of pollStep on a fulfilled result. -/
theorem pollStep_some (m : List (String × ActiveJob)) (b : Bool)
    (js : TranscriptionStatusResponse) :
    pollStep (m, b) (some js) =
      match mapGet m js.job_id with
      | none => (m, b)
      | some cur =>
          if jsFieldsDiffer cur js then
            (mapSet m js.job_id (applyStatus cur js), true)
          else (m, b) := rfl

/-- A result echoing a key other than k never changes the entry of k. -/
theorem pollStep_get_other
    (oracle : String → Option TranscriptionStatusResponse)
    (m : List (String × ActiveJob)) (b : Bool) (k k1 : String)
    (hech1 : ∀ js2, oracle k1 = some js2 → js2.job_id = k1)
    (hk1 : k1 ≠ k) :
    mapGet (pollStep (m, b) (oracle k1)).1 k = mapGet m k := by
  cases ho : oracle k1 with
  | none => rw [pollStep_none]
  | some js =>
      have hid : js.job_id = k1 := hech1 js ho
      rw [pollStep_some]
      cases hg : mapGet m js.job_id with
      | none => rfl
      | some cur =>
          by_cases hd : jsFieldsDiffer cur js = true
          · simp only [hd, if_true]
            exact mapGet_mapSet_ne m k js.job_id (applyStatus cur js)
              (hid ▸ hk1)
          · simp only [hd]
            simp [hd]
  
/-- Folding results whose keys avoid k leaves the entry of k alone. -/
theorem foldl_pollStep_untouched
    (oracle : String → Option TranscriptionStatusResponse)
    (ks : List String) (m : List (String × ActiveJob)) (b : Bool)
    (k : String)
    (hecho : ∀ k2 ∈ ks, ∀ js2, oracle k2 = some js2 → js2.job_id = k2)
    (hk : k ∉ ks) :
    mapGet ((ks.map oracle).foldl pollStep (m, b)).1 k = mapGet m k := by
  revert hecho hk
  induction ks generalizing m b with
  | nil => intro _ _; rfl
  | cons k1 t ih =>
      intro hecho hk
      have hk1 : k1 ≠ k := by
        intro hh
        exact hk (hh ▸ List.mem_cons_self k1 t)
      have hkt : k ∉ t := fun hh => hk (List.mem_cons_of_mem k1 hh)
      have hech1 : ∀ js2, oracle k1 = some js2 → js2.job_id = k1 :=
        fun js2 hh => hecho k1 (List.mem_cons_self k1 t) js2 hh
      have hstep := pollStep_get_other oracle m b k k1 hech1 hk1
      simp only [List.map_cons, List.foldl_cons]
      have htail := ih (pollStep (m, b) (oracle k1)).1
        (pollStep (m, b) (oracle k1)).2
        (fun k2 hk2 js2 hh => hecho k2 (List.mem_cons_of_mem k1 hk2) js2 hh)
        hkt
      exact htail.trans hstep

/-- Full characterization of the entry of a changed, successfully fetched
job after one reconciliation fold: it holds the applied update. -/
theorem foldl_pollStep_get
    (oracle : String → Option TranscriptionStatusResponse)
    (ks : List String) (m : List (String × ActiveJob)) (b : Bool)
    (k : String) (cur : ActiveJob) (js : TranscriptionStatusResponse)
    (ho : oracle k = some js)
    (hdiff : jsFieldsDiffer cur js = true)
    (hecho : ∀ k2 ∈ ks, ∀ js2, oracle k2 = some js2 → js2.job_id = k2)
    (hnd : ks.Nodup) (hk : k ∈ ks)
    (hcur : mapGet m k = some cur) :
    mapGet ((ks.map oracle).foldl pollStep (m, b)).1 k =
      some (applyStatus cur js) := by
  revert hecho hnd hk hcur
  induction ks generalizing m b with
  | nil => intro _ _ hk _; cases hk
  | cons k1 t ih =>
      intro hecho hnd hk hcur
      rcases List.mem_cons.mp hk with heq | hkt
      · subst heq
        have hid : js.job_id = k := hecho k (List.mem_cons_self k t) js ho
        have hstep : pollStep (m, b) (oracle k) =
            (mapSet m k (applyStatus cur js), true) := by
          rw [ho, pollStep_some, hid, hcur]
          simp [hdiff]
        simp only [List.map_cons, List.foldl_cons]
        rw [hstep]
        have hkt' : k ∉ t := (List.nodup_cons.mp hnd).1
        have huntouched := foldl_pollStep_untouched oracle t
          (mapSet m k (applyStatus cur js)) true k
          (fun k2 hk2 js2 hh => hecho k2 (List.mem_cons_of_mem k hk2) js2 hh)
          hkt'
        rw [huntouched]
        exact mapGet_mapSet_self m k (applyStatus cur js)
      · have hk1 : k1 ≠ k := by
          intro hh
          exact (List.nodup_cons.mp hnd).1 (hh ▸ hkt)
        have hech1 : ∀ js2, oracle k1 = some js2 → js2.job_id = k1 :=
          fun js2 hh => hecho k1 (List.mem_cons_self k1 t) js2 hh
        have hstep := pollStep_get_other oracle m b k k1 hech1 hk1
        simp only [List.map_cons, List.foldl_cons]
        exact ih (pollStep (m, b) (oracle k1)).1
          (pollStep (m, b) (oracle k1)).2
          (fun k2 hk2 js2 hh => hecho k2 (List.mem_cons_of_mem k1 hk2) js2 hh)
          ((List.nodup_cons.mp hnd).2) hkt (hstep.trans hcur)

/-- C5: within one poll tick, per-job fetch failures are isolated. Whatever
subset of the tracked jobs fails to fetch (the oracle is arbitrary at every
other key), a tracked job whose fetch succeeded and whose observable fields
changed is updated to the fetched values. Hypotheses: the tracked keys are
distinct (a Map guarantees this) and each fetched status echoes the job id
it was requested for (the server contract). -/
theorem c5_poll_failures_isolated (st : ServiceState)
    (oracle : String → Option TranscriptionStatusResponse)
    (k : String) (cur : ActiveJob) (js : TranscriptionStatusResponse)
    (hnd : (st.activeJobs.map Prod.fst).Nodup)
    (hecho : ∀ k2 ∈ st.activeJobs.map Prod.fst, ∀ js2,
      oracle k2 = some js2 → js2.job_id = k2)
    (hcur : mapGet st.activeJobs k = some cur)
    (ho : oracle k = some js)
    (hdiff : jsFieldsDiffer cur js = true) :
    mapGet (pollActiveJobs st oracle).1.activeJobs k =
      some (applyStatus cur js) := by
  have hk : k ∈ st.activeJobs.map Prod.fst :=
    mapGet_some_mem_keys st.activeJobs k cur hcur
  have hne : st.activeJobs.isEmpty = false := by
    cases hA : st.activeJobs with
    | nil => rw [hA] at hk; cases hk
    | cons a t => rfl
  simp only [pollActiveJobs, hne, Bool.false_eq_true, if_false]
  exact foldl_pollStep_get oracle (st.activeJobs.map Prod.fst)
    st.activeJobs false k cur js ho hdiff hecho hnd hk hcur

end TranscribeClient

namespace TranscribeClient

/-- A second tracked job, still queued, used by the C5 witness. -/
def sampleJob2 : ActiveJob :=
  { jobId := "j2", status := "queued", progress := 0, createdAt := 0 }

/-- A state tracking two jobs. -/
def twoJobState : ServiceState :=
  { userId := some "u1",
    activeJobs := [("j1", sampleJob), ("j2", sampleJob2)] }

/-- A fetched status for the second job that differs from the local one. -/
def statusW : TranscriptionStatusResponse :=
  { job_id := "j2", status := "completed", progress := 1,
    transcription := some "hello world" }

/-- An oracle under which the fetch of the first job fails and the fetch of
the second succeeds. -/
def oracleW : String → Option TranscriptionStatusResponse :=
  fun k => if k == "j2" then some statusW else none

/-- Witness for C5: with one failing fetch and one succeeding changed
fetch, the succeeding job is updated. -/
theorem c5_poll_witness :
    (twoJobState.activeJobs.map Prod.fst).Nodup ∧
    (∀ k2 ∈ twoJobState.activeJobs.map Prod.fst, ∀ js2,
      oracleW k2 = some js2 → js2.job_id = k2) ∧
    mapGet twoJobState.activeJobs "j2" = some sampleJob2 ∧
    oracleW "j2" = some statusW ∧
    jsFieldsDiffer sampleJob2 statusW = true ∧
    mapGet (pollActiveJobs twoJobState oracleW).1.activeJobs "j2" =
      some (applyStatus sampleJob2 statusW) := by
  have hech : ∀ k2 ∈ twoJobState.activeJobs.map Prod.fst, ∀ js2,
      oracleW k2 = some js2 → js2.job_id = k2 := by
    intro k2 hk2 js2 hh
    simp [twoJobState, sampleJob, sampleJob2] at hk2
    rcases hk2 with rfl | rfl
    · simp [oracleW] at hh
    · simp [oracleW] at hh
      rw [← hh]
      rfl
  exact ⟨by decide, hech, by decide, rfl, by decide,
    c5_poll_failures_isolated twoJobState oracleW "j2" sampleJob2 statusW
      (by decide) hech (by decide) rfl (by decide)⟩

/-- The request body never touches the job mapping. -/
theorem makeRequestCore_activeJobs (T : Type) (endpoint : String)
    (hasJsonBody : Bool) (st : ServiceState)
    (resp : Except String (HttpResp T)) :
    (makeRequestCore T endpoint hasJsonBody st resp).2.1.activeJobs =
      st.activeJobs := by
  unfold makeRequestCore
  by_cases hs : st.isStale = true <;> simp [hs]
  cases resp with
  | error e => rfl
  | ok hr =>
      cases hv : hr.echoedVersion with
      | none => by_cases hok : hr.ok = true <;> simp [hv, hok]
      | some bv =>
          by_cases hbv : bv = st.currentVersion <;>
            by_cases hok : hr.ok = true <;> simp [hv, hbv, hok]

/-- initializeUserId never touches the job mapping. -/
theorem initUser_activeJobs (st stI : ServiceState) (evs : List Event)
    (h : initUser st = some (stI, evs)) :
    stI.activeJobs = st.activeJobs := by
  unfold initUser at h
  cases hls : st.localStorageUserId with
  | none => rw [hls] at h; cases h
  | some u =>
      rw [hls] at h
      simp only [Option.some.injEq, Prod.mk.injEq] at h
      rw [← h.1]

/-- makeRequest never touches the job mapping. -/
theorem makeRequest_activeJobs (T : Type) (endpoint : String)
    (hasJsonBody : Bool) (st : ServiceState)
    (resp : Except String (HttpResp T)) (r : APIResponse T)
    (st1 : ServiceState) (evs : List Event)
    (h : makeRequest T endpoint hasJsonBody st resp = some (r, st1, evs)) :
    st1.activeJobs = st.activeJobs := by
  unfold makeRequest at h
  cases hinit : (if st.userId.isNone then initUser st else some (st, [])) with
  | none => rw [hinit] at h; cases h
  | some p =>
      obtain ⟨stI, evs1⟩ := p
      rw [hinit] at h
      simp only [Option.some.injEq, Prod.mk.injEq] at h
      have hIjobs : stI.activeJobs = st.activeJobs := by
        by_cases hu : st.userId.isNone = true
        · rw [if_pos hu] at hinit
          exact initUser_activeJobs st stI evs1 hinit
        · rw [if_neg hu] at hinit
          simp only [Option.some.injEq, Prod.mk.injEq] at hinit
          rw [← hinit.1]
      rw [← h.2.1, makeRequestCore_activeJobs]
      exact hIjobs

/-- transcribeAudio either leaves the mapping alone (failed submission) or
sets exactly the returned job id. -/
theorem transcribeAudio_activeJobs (st : ServiceState)
    (resp : Except String (HttpResp TranscriptionJobResponse)) (now : Nat)
    (r : APIResponse String) (st1 : ServiceState) (evs : List Event)
    (h : transcribeAudio st resp now = some (r, st1, evs)) :
    st1.activeJobs = st.activeJobs ∨
    ∃ d : TranscriptionJobResponse,
      st1.activeJobs = mapSet st.activeJobs d.job_id (submittedJob d now) := by
  unfold transcribeAudio at h
  cases hmr : makeRequest TranscriptionJobResponse "/transcribe" false st
      resp with
  | none => rw [hmr] at h; cases h
  | some out =>
      obtain ⟨r0, st0, evs0⟩ := out
      rw [hmr] at h
      have hjobs : st0.activeJobs = st.activeJobs :=
        makeRequest_activeJobs _ _ _ _ _ _ _ _ hmr
      cases hd : r0.data with
      | none =>
          simp [hd] at h
          obtain ⟨h1, h2, h3⟩ := h
          subst h2
          exact Or.inl hjobs
      | some d =>
          simp [hd] at h
          obtain ⟨h1, h2, h3⟩ := h
          subst h2
          refine Or.inr ⟨d, ?_⟩
          simp [submittedJob, hjobs]

/-- One reconciliation step preserves the presence of every tracked job. -/
theorem pollStep_preserves_job (acc : List (String × ActiveJob) × Bool)
    (r : Option TranscriptionStatusResponse) (k : String)
    (h : (mapGet acc.1 k).isSome = true) :
    (mapGet (pollStep acc r).1 k).isSome = true := by
  obtain ⟨m, b⟩ := acc
  cases r with
  | none => exact h
  | some js =>
      rw [pollStep_some]
      cases hg : mapGet m js.job_id with
      | none => exact h
      | some cur =>
          by_cases hd : jsFieldsDiffer cur js = true
          · simp only [hd, if_true]
            exact mapGet_isSome_mapSet m k js.job_id (applyStatus cur js) h
          · simp only [hd]
            simpa [hd] using h

/-- The whole reconciliation fold preserves presence. -/
theorem foldl_pollStep_preserves_job
    (results : List (Option TranscriptionStatusResponse))
    (acc : List (String × ActiveJob) × Bool) (k : String)
    (h : (mapGet acc.1 k).isSome = true) :
    (mapGet (results.foldl pollStep acc).1 k).isSome = true := by
  induction results generalizing acc with
  | nil => exact h
  | cons r t ih =>
      exact ih (pollStep acc r) (pollStep_preserves_job acc r k h)

/-- A poll tick preserves the presence of every tracked job. -/
theorem pollActiveJobs_preserves_job (st : ServiceState)
    (oracle : String → Option TranscriptionStatusResponse) (k : String)
    (h : (mapGet st.activeJobs k).isSome = true) :
    (mapGet (pollActiveJobs st oracle).1.activeJobs k).isSome = true := by
  unfold pollActiveJobs
  by_cases he : st.activeJobs.isEmpty = true
  · simp only [he, if_true]
    exact h
  · simp only [he, if_false]
    exact foldl_pollStep_preserves_job _ _ k h

/-- Every single interaction preserves the presence of every tracked
job. -/
theorem clientStep_preserves_job (st : ServiceState) (op : ClientOp)
    (k : String) (h : (mapGet st.activeJobs k).isSome = true) :
    (mapGet (clientStep st op).activeJobs k).isSome = true := by
  cases op with
  | submit resp now =>
      simp only [clientStep]
      cases htr : transcribeAudio st resp now with
      | none => exact h
      | some out =>
          obtain ⟨r, st1, evs⟩ := out
          rcases transcribeAudio_activeJobs st resp now r st1 evs htr with
            heq | ⟨d, heq⟩
          · simpa [heq] using h
          · rw [heq]
            exact mapGet_isSome_mapSet _ _ _ _ h
  | poll oracle => exact pollActiveJobs_preserves_job st oracle k h
  | checkVersion versionResp =>
      simp only [clientStep]
      cases versionResp with
      | none => exact h
      | some v =>
          by_cases hv : v = st.currentVersion <;>
            simp [checkVersionCompatibility, hv] <;> exact h
  | backendVersion versionResp =>
      cases versionResp <;> simpa [clientStep, getBackendVersion] using h
  | fetchUser uresp =>
      simp only [clientStep]
      cases hg : getUser st uresp with
      | none => exact h
      | some out =>
          obtain ⟨r, st1, evs⟩ := out
          unfold getUser at hg
          cases hmr : makeRequest UserResponse "/user" false st uresp with
          | none => rw [hmr] at hg; cases hg
          | some out2 =>
              obtain ⟨r2, st2, evs2⟩ := out2
              rw [hmr] at hg
              simp at hg
              obtain ⟨hg1, hg2, hg3⟩ := hg
              subst hg2
              have := makeRequest_activeJobs _ _ _ _ _ _ _ _ hmr
              simpa [this] using h
  | jobStatus jobId resp =>
      simp only [clientStep]
      cases hmr : getJobStatus st jobId resp with
      | none => exact h
      | some out =>
          obtain ⟨r, st1, evs⟩ := out
          unfold getJobStatus at hmr
          have := makeRequest_activeJobs _ _ _ _ _ _ _ _ hmr
          simpa [this] using h
  | userJobs resp =>
      simp only [clientStep]
      cases hmr : getUserJobs st resp with
      | none => exact h
      | some out =>
          obtain ⟨r, st1, evs⟩ := out
          unfold getUserJobs at hmr
          have := makeRequest_activeJobs _ _ _ _ _ _ _ _ hmr
          simpa [this] using h
  | registerHandler => simpa [clientStep, registerJobUpdateHandler] using h

/-- C6: no operation of the service ever removes an entry from the local
job mapping: over any sequence of submissions, poll ticks, version checks
and other interactions, once a job id is present in activeJobs it remains
present, terminal jobs included. -/
theorem c6_jobs_never_evicted (ops : List ClientOp) (st : ServiceState)
    (k : String) (h : (mapGet st.activeJobs k).isSome = true) :
    (mapGet (runOps st ops).activeJobs k).isSome = true := by
  induction ops generalizing st with
  | nil => exact h
  | cons op t ih => exact ih (clientStep st op) (clientStep_preserves_job st op k h)

/-- Witness for C6: a concrete session with a poll tick, a version
mismatch, a submission and a handler registration keeps the tracked job. -/
theorem c6_jobs_never_evicted_witness :
    (mapGet sampleState.activeJobs "j1").isSome = true ∧
    (mapGet (runOps sampleState
        [ClientOp.poll (fun _ => none),
         ClientOp.checkVersion (some "1.1.0"),
         ClientOp.submit (Except.error "net") 3,
         ClientOp.registerHandler]).activeJobs "j1").isSome = true :=
  ⟨by decide,
   c6_jobs_never_evicted
     [ClientOp.poll (fun _ => none),
      ClientOp.checkVersion (some "1.1.0"),
      ClientOp.submit (Except.error "net") 3,
      ClientOp.registerHandler] sampleState "j1" (by decide)⟩

end TranscribeClient

namespace TranscribeClient

/-- A category result as stored and as freshly parsed: structurally equal
values. -/
def categoryC4 : TranscriptCategory :=
  { primary_topic := "greeting", sentiment := "neutral",
    keywords := ["hello"], confidence := 1, summary := "a greeting" }

/-- A completed tracked job carrying a category. -/
def doneJob : ActiveJob :=
  { jobId := "j1", status := "completed", progress := 1,
    transcription := some "hello world", category := some categoryC4,
    error := none, createdAt := 0 }

/-- The state tracking only that completed job. -/
def doneState : ServiceState :=
  { userId := some "u1", activeJobs := [("j1", doneJob)] }

/-- A fetched status whose five observable fields are structurally equal to
the stored ones. -/
def statusC4 : TranscriptionStatusResponse :=
  { job_id := "j1", status := "completed", progress := 1,
    transcription := some "hello world", category := some categoryC4,
    error := none }

/-- An oracle returning exactly the stored values for the tracked job. -/
def equalOracle : String → Option TranscriptionStatusResponse :=
  fun k => if k == "j1" then some statusC4 else none

/-- C4 (failing input): a poll tick that fetches values structurally equal
to the stored ones — same status, progress, transcription, category and
error — still applies a write and notifies the observers, because the
change test compares the category field with the strict-inequality operator
of the language, which on objects is reference inequality, and the freshly
parsed category object is never the object stored on an earlier tick. This
contradicts the stated property that an update is written and observers are
notified only when at least one observable field differs; the comment above
the test in the source (Update job status if it is changed) shows the
change-detection intent, so the code is the slip. -/
theorem c4_notify_on_unchanged_fields :
    (doneJob.status = statusC4.status ∧
     doneJob.progress = statusC4.progress ∧
     doneJob.transcription = statusC4.transcription ∧
     doneJob.category = statusC4.category ∧
     doneJob.error = statusC4.error) ∧
    jsFieldsDiffer doneJob statusC4 = true ∧
    (pollActiveJobs doneState equalOracle).2 =
      [Event.notify [("j1", doneJob)]] := by
  refine ⟨by decide, by decide, ?_⟩
  decide

end TranscribeClient

namespace ContentCache

/-- The interleaving invariant of the single-flight machine: the cached
value can only be the computed one, every finished caller received it,
exactly one caller runs the computation while it is in flight, the compute
function has run exactly once as soon as a computation is in flight or has
landed, the miss counter counts the landed computation, every hit or miss
belongs to a finished caller, nobody finishes before the entry exists, and
the number of callers is constant. -/
structure Inv (V : Type) (v : V) (n : Nat) (s : CacheSys V) : Prop where
  entry_val : ∀ w, s.entry = some w → w = v
  done_val : ∀ w, CallerState.done w ∈ s.callers → w = v
  comp_inflight : computingCount s = (if s.inflight then 1 else 0)
  computes_eq : s.computes = (if s.inflight ∨ s.entry.isSome then 1 else 0)
  not_both : ¬(s.inflight = true ∧ s.entry.isSome = true)
  misses_eq : s.misses = (if s.entry.isSome then 1 else 0)
  hits_done : s.hits + s.misses = doneCount s
  done_entry : 0 < doneCount s → s.entry.isSome = true
  card_eq : Multiset.card s.callers = n

/-- The invariant holds initially. -/
theorem inv_init (V : Type) (v : V) (n : Nat) : Inv V v n (initSys V n) := by
  have hfilter : ∀ (p : CallerState V → Bool), p CallerState.start = false →
      (Multiset.replicate n CallerState.start).filter
        (fun c => p c = true) = 0 := by
    intro p hp
    rw [Multiset.filter_eq_nil]
    intro a ha
    rw [Multiset.eq_of_mem_replicate ha, hp]
    simp
  refine ⟨?_, ?_, ?_, ?_, ?_, ?_, ?_, ?_, ?_⟩
  · intro w hw; cases hw
  · intro w hmem
    have := Multiset.eq_of_mem_replicate hmem
    cases this
  · simp [computingCount, initSys, hfilter isComputing rfl]
  · simp [initSys]
  · simp [initSys]
  · simp [initSys]
  · simp [initSys, doneCount, hfilter isDone rfl]
  · simp [initSys, doneCount, hfilter isDone rfl]
  · simp [initSys]

/-- The invariant is preserved by every interleaving step. -/
theorem inv_step (V : Type) (v : V) (n : Nat) (s s2 : CacheSys V)
    (hs : Inv V v n s) (hstep : CacheStep V v s s2) : Inv V v n s2 := by
  obtain ⟨he, hd, hc, hq, hb, hm, hh, hde, hca⟩ := hs
  cases hstep with
  | hit w h m c inf rest =>
      have hw : w = v := he w rfl
      refine ⟨?_, ?_, ?_, ?_, ?_, ?_, ?_, ?_, ?_⟩
      · intro w2 hw2
        have h2 : w = w2 := by simpa using hw2
        rw [← h2]; exact hw
      · intro w2 hmem
        rcases Multiset.mem_cons.mp hmem with heq | hrest
        · have h2 : w2 = w := by simpa using heq
          rw [h2]; exact hw
        · exact hd w2 (Multiset.mem_cons_of_mem hrest)
      · simp [computingCount, isComputing, Multiset.filter_cons] at hc ⊢
        omega
      · simpa using hq
      · simpa using hb
      · simpa using hm
      · simp [doneCount, isDone, Multiset.filter_cons] at hh ⊢
        omega
      · intro hpos
        simp
      · simp at hca ⊢
        omega
  | beginCompute h m c rest =>
      refine ⟨?_, ?_, ?_, ?_, ?_, ?_, ?_, ?_, ?_⟩
      · intro w2 hw2
        simp at hw2
      · intro w2 hmem
        rcases Multiset.mem_cons.mp hmem with heq | hrest
        · simp at heq
        · exact hd w2 (Multiset.mem_cons_of_mem hrest)
      · simp [computingCount, isComputing, Multiset.filter_cons] at hc ⊢
        exact hc
      · simp at hq ⊢
        omega
      · simp
      · simpa using hm
      · simp [doneCount, isDone, Multiset.filter_cons] at hh ⊢
        omega
      · intro hpos
        simp [doneCount, isDone, Multiset.filter_cons] at hpos
        refine absurd (hde ?_) (by simp)
        simp [doneCount, isDone, Multiset.filter_cons]
        omega
      · simp at hca ⊢
        omega
  | attach h m c rest =>
      refine ⟨?_, ?_, ?_, ?_, ?_, ?_, ?_, ?_, ?_⟩
      · intro w2 hw2
        simp at hw2
      · intro w2 hmem
        rcases Multiset.mem_cons.mp hmem with heq | hrest
        · simp at heq
        · exact hd w2 (Multiset.mem_cons_of_mem hrest)
      · simp [computingCount, isComputing, Multiset.filter_cons] at hc ⊢
        omega
      · simpa using hq
      · simp
      · simpa using hm
      · simp [doneCount, isDone, Multiset.filter_cons] at hh ⊢
        omega
      · intro hpos
        simp [doneCount, isDone, Multiset.filter_cons] at hpos
        refine absurd (hde ?_) (by simp)
        simp [doneCount, isDone, Multiset.filter_cons]
        omega
      · simp at hca ⊢
        omega
  | finish e h m c inf rest =>
      simp [computingCount, isComputing, Multiset.filter_cons] at hc
      have hinf : inf = true := by
        by_cases hi : inf = true
        · exact hi
        · simp [hi] at hc
      subst hinf
      have hent : e = none := by
        cases he2 : e with
        | none => rfl
        | some w2 =>
            rw [he2] at hb
            exact absurd ⟨rfl, rfl⟩ hb
      subst hent
      have hm0 : m = 0 := by simpa using hm
      have hc1 : c = 1 := by simpa using hq
      simp at hc
      refine ⟨?_, ?_, ?_, ?_, ?_, ?_, ?_, ?_, ?_⟩
      · intro w2 hw2
        have h2 : v = w2 := by simpa using hw2
        rw [← h2]
      · intro w2 hmem
        rcases Multiset.mem_cons.mp hmem with heq | hrest
        · simpa using heq
        · exact hd w2 (Multiset.mem_cons_of_mem hrest)
      · simp [computingCount, isComputing, Multiset.filter_cons]
        exact hc
      · simp [hc1]
      · simp
      · simp [hm0]
      · simp [doneCount, isDone, Multiset.filter_cons] at hh ⊢
        omega
      · intro hpos
        simp
      · simp at hca ⊢
        omega
  | wake w h m c inf rest =>
      have hw : w = v := he w rfl
      refine ⟨?_, ?_, ?_, ?_, ?_, ?_, ?_, ?_, ?_⟩
      · intro w2 hw2
        have h2 : w = w2 := by simpa using hw2
        rw [← h2]; exact hw
      · intro w2 hmem
        rcases Multiset.mem_cons.mp hmem with heq | hrest
        · have h2 : w2 = w := by simpa using heq
          rw [h2]; exact hw
        · exact hd w2 (Multiset.mem_cons_of_mem hrest)
      · simp [computingCount, isComputing, Multiset.filter_cons] at hc ⊢
        omega
      · simpa using hq
      · simpa using hb
      · simpa using hm
      · simp [doneCount, isDone, Multiset.filter_cons] at hh ⊢
        omega
      · intro hpos
        simp
      · simp at hca ⊢
        omega

/-- The invariant holds in every reachable state. -/
theorem inv_reach (V : Type) (v : V) (n : Nat) (s : CacheSys V)
    (hreach : Reaches V v (initSys V n) s) : Inv V v n s := by
  induction hreach with
  | refl => exact inv_init V v n
  | tail _ hstep ih => exact inv_step V v n _ _ ih hstep

end ContentCache

namespace ContentCache

/-- C9 (spec-modelled): for one fingerprint with no prior cache entry and
any number n of concurrent getOrCompute callers, every interleaving of the
single-flight machine that ends with all callers finished has invoked the
compute function exactly once, incremented the miss counter exactly once
and the hit counter exactly n - 1 times, and every caller received the same
computed result. -/
theorem c9_single_flight (V : Type) (v : V) (n : Nat) (s : CacheSys V)
    (hn : 0 < n)
    (hreach : Reaches V v (initSys V n) s)
    (hfinal : ∀ c ∈ s.callers, isDone c = true) :
    s.computes = 1 ∧ s.misses = 1 ∧ s.hits = n - 1 ∧
    ∀ c ∈ s.callers, c = CallerState.done v := by
  obtain ⟨he, hd, hc, hq, hb, hm, hh, hde, hca⟩ := inv_reach V v n s hreach
  have hdoneval : ∀ c ∈ s.callers, c = CallerState.done v := by
    intro c hcm
    have hdc := hfinal c hcm
    cases c with
    | done w => rw [hd w hcm]
    | start => simp [isDone] at hdc
    | computing => simp [isDone] at hdc
    | waiting => simp [isDone] at hdc
  have hdcount : doneCount s = n := by
    unfold doneCount
    rw [Multiset.filter_eq_self.mpr hfinal]
    exact hca
  have hccount : computingCount s = 0 := by
    unfold computingCount
    have hnil : Multiset.filter (fun c => isComputing c = true) s.callers
        = 0 :=
      Multiset.filter_eq_nil.mpr (by
        intro a ha
        rw [hdoneval a ha]
        simp [isComputing])
    rw [hnil]
    rfl
  have hinf : s.inflight = false := by
    cases hi : s.inflight with
    | false => rfl
    | true =>
        rw [hccount, hi] at hc
        simp at hc
  have hent : s.entry.isSome = true := hde (by rw [hdcount]; exact hn)
  have hm1 : s.misses = 1 := by rw [hm, hent]; rfl
  refine ⟨?_, hm1, ?_, hdoneval⟩
  · rw [hq, hinf, hent]
    rfl
  · rw [hdcount] at hh
    omega

/-- Final state of the two-caller witness interleaving. -/
def finSys : CacheSys Nat :=
  ⟨some 5, 1, 1, false, 1,
   CallerState.done 5 ::ₘ CallerState.done 5 ::ₘ 0⟩

/-- Witness for C9: two concurrent callers for one uncached fingerprint,
interleaved as begin-compute, attach, finish, wake: one computation, one
miss, one hit, both callers done with the computed value. -/
theorem c9_single_flight_witness :
    0 < 2 ∧
    Reaches Nat 5 (initSys Nat 2) finSys ∧
    (∀ c ∈ finSys.callers, isDone c = true) ∧
    (finSys.computes = 1 ∧ finSys.misses = 1 ∧ finSys.hits = 2 - 1 ∧
     ∀ c ∈ finSys.callers, c = CallerState.done 5) := by
  have step1 : CacheStep Nat 5
      ⟨none, 0, 0, false, 0,
       CallerState.start ::ₘ CallerState.start ::ₘ 0⟩
      ⟨none, 0, 0, true, 1,
       CallerState.computing ::ₘ CallerState.start ::ₘ 0⟩ :=
    CacheStep.beginCompute 0 0 0 (CallerState.start ::ₘ 0)
  have step2 : CacheStep Nat 5
      ⟨none, 0, 0, true, 1,
       CallerState.computing ::ₘ CallerState.start ::ₘ 0⟩
      ⟨none, 0, 0, true, 1,
       CallerState.waiting ::ₘ CallerState.computing ::ₘ 0⟩ := by
    rw [show (CallerState.computing ::ₘ CallerState.start ::ₘ 0 :
        Multiset (CallerState Nat)) =
        CallerState.start ::ₘ CallerState.computing ::ₘ 0 from
      Multiset.cons_swap CallerState.computing CallerState.start 0]
    exact CacheStep.attach 0 0 1 (CallerState.computing ::ₘ 0)
  have step3 : CacheStep Nat 5
      ⟨none, 0, 0, true, 1,
       CallerState.waiting ::ₘ CallerState.computing ::ₘ 0⟩
      ⟨some 5, 0, 1, false, 1,
       CallerState.done 5 ::ₘ CallerState.waiting ::ₘ 0⟩ := by
    rw [show (CallerState.waiting ::ₘ CallerState.computing ::ₘ 0 :
        Multiset (CallerState Nat)) =
        CallerState.computing ::ₘ CallerState.waiting ::ₘ 0 from
      Multiset.cons_swap CallerState.waiting CallerState.computing 0]
    exact CacheStep.finish none 0 0 1 true (CallerState.waiting ::ₘ 0)
  have step4 : CacheStep Nat 5
      ⟨some 5, 0, 1, false, 1,
       CallerState.done 5 ::ₘ CallerState.waiting ::ₘ 0⟩ finSys := by
    rw [show (CallerState.done 5 ::ₘ CallerState.waiting ::ₘ 0 :
        Multiset (CallerState Nat)) =
        CallerState.waiting ::ₘ CallerState.done 5 ::ₘ 0 from
      Multiset.cons_swap (CallerState.done 5) CallerState.waiting 0]
    exact CacheStep.wake 5 0 1 1 false (CallerState.done 5 ::ₘ 0)
  have hcallers : Multiset.replicate 2
      (CallerState.start : CallerState Nat) =
      CallerState.start ::ₘ CallerState.start ::ₘ 0 := by decide
  have h0 : initSys Nat 2 =
      ⟨none, 0, 0, false, 0,
       CallerState.start ::ₘ CallerState.start ::ₘ 0⟩ := by
    unfold initSys
    rw [hcallers]
  have hreach : Reaches Nat 5 (initSys Nat 2) finSys := by
    rw [h0]
    exact Relation.ReflTransGen.head step1
      (Relation.ReflTransGen.head step2
        (Relation.ReflTransGen.head step3
          (Relation.ReflTransGen.single step4)))
  have hfin : ∀ c ∈ finSys.callers, isDone c = true := by decide
  exact ⟨by decide, hreach, hfin,
    c9_single_flight Nat 5 2 finSys (by decide) hreach hfin⟩

end ContentCache
